import Mathlib

/-!
Verification of `download_amazon_reviews.py`.

Shallow embedding conventions:

* A filesystem path is a list of name components, already absolute and
  resolved (`Path(...).resolve()` / `.expanduser()` are modelled as the
  identity on these resolved component lists).
* The filesystem is the list of existing nodes (directories and files
  alike); existence is list membership.
* Effects that the claims talk about (remote fetches, tar writes,
  recursive deletes) are recorded in an event trace returned alongside
  the new filesystem.
* Python exceptions are modelled by `Except Err`; `Err.msg` plays the
  role of `str(e)`.  Exact Python `repr` details (set braces, quoting
  inside TypeError texts, the emoji prefix of the overlap message) are
  abstracted, the structured payload is kept.
* `tarfile.open(path, mode, compresslevel=...)` semantics, checked
  against CPython: with `compresslevel=None` (which the source passes
  for the "bz2" and "xz" formats) the call raises a `TypeError`; for
  "bz2" the error is raised before the archive file is opened, for
  "xz" the `LZMAFile` is created first, so an empty archive file is
  left behind; for "gz" the given level is applied and the archive is
  written.
* `Path.with_suffix(ext)` replaces the *last* dot-suffix of the final
  component (a dot at position 0 or at the very end does not count as
  starting a suffix), exactly as in CPython's pathlib.
-/

namespace AmazonReviews

/-- A resolved absolute filesystem path, as its list of components. -/
abbrev FPath := List String

/-- The filesystem: the list of existing nodes (files and directories). -/
abbrev FS := List FPath

/-- `Path.exists()`. -/
def pathExists (fs : FS) (p : FPath) : Bool := decide (p ∈ fs)

/-- `anc` is an ancestor of `p` or `p` itself (component-wise leading segment). -/
def descOf : FPath → FPath → Bool
  | [], _ => true
  | _ :: _, [] => false
  | a :: as, b :: bs => a == b && descOf as bs

/-- `shutil.rmtree(p, ignore_errors=True)`: removes `p` and everything below it. -/
def rmtree (fs : FS) (p : FPath) : FS := fs.filter (fun q => !(descOf p q))

/-- Create a node if it is not already present. -/
def insertNode (fs : FS) (p : FPath) : FS := if p ∈ fs then fs else fs ++ [p]

/-- All leading segments of a path, from the root down to the path itself. -/
def initSegs : FPath → List FPath
  | [] => [[]]
  | a :: rest => [] :: (initSegs rest).map (fun q => a :: q)

/-- `p.mkdir(parents=True, exist_ok=True)`: create `p` and any missing ancestors. -/
def mkdirParents (fs : FS) (p : FPath) : FS := (initSegs p).foldl insertNode fs

/-- Index of the last `.` in a component name, if any. -/
def lastDotIdx : List Char → Option Nat
  | [] => none
  | c :: rest =>
    match lastDotIdx rest with
    | some i => some (i + 1)
    | none => if c == '.' then some 0 else none

/-- CPython `PurePath.stem`: strip the last dot-suffix of a name; a dot at
position `0` or at the last position does not start a suffix. -/
def pyStem (name : String) : String :=
  let cs := name.data
  match lastDotIdx cs with
  | some i => if 0 < i && i + 1 < cs.length then String.mk (cs.take i) else name
  | none => name

/-- CPython `Path.with_suffix(ext)`: replace the last component by its stem
followed by `ext`. -/
def withSuffix : FPath → String → FPath
  | [], _ => []
  | [n], ext => [pyStem n ++ ext]
  | a :: b :: rest, ext => a :: withSuffix (b :: rest) ext

/-- The dataset as serialized on disk: the relative paths `save_to_disk` writes. -/
abbrev Dataset := List FPath

/-- `dataset.save_to_disk(path)`: write the dataset files under `path`. -/
def save_to_disk (fs : FS) (p : FPath) (d : Dataset) : FS :=
  d.foldl (fun a r => insertNode a (p ++ r)) fs

/-- The Python exceptions the script can raise, with their payloads. -/
inductive Err where
  | invalidCategories (invalid : List String)
  | badLevel (level : Int)
  | badFormat (fmt : String)
  | pathOverlap
  | tarLevelTypeError (fmt : String)
  | fetchFail (msg : String)
  deriving Repr, DecidableEq

/-- `str(e)` for each modelled exception. -/
def Err.msg : Err → String
  | .invalidCategories invalid => s!"Invalid categories: {invalid}"
  | .badLevel level => s!"Compression level must be between 1 and 9, got {level}"
  | .badFormat fmt => s!"Unsupported compression format: {fmt}"
  | .pathOverlap => "base_save_path and HF_DATASETS_CACHE must be separate and non-overlapping."
  | .tarLevelTypeError fmt =>
      if fmt == "bz2" then "TypeError: comparison of int and NoneType (compresslevel=None)"
      else "TypeError: TarFile.__init__() got an unexpected keyword argument compresslevel"
  | .fetchFail m => m

/-- The observable effects the claims talk about. -/
inductive Event where
  | fetch (name : String)
  | tarCreate (archive : FPath) (rootName : String)
  | rmtreeDir (p : FPath)
  deriving Repr, DecidableEq

/-- List of available categories (`VALID_CATEGORIES`). -/
def VALID_CATEGORIES : List String :=
  ["All_Beauty", "Amazon_Fashion", "Appliances", "Arts_Crafts_and_Sewing", "Automotive",
   "Baby_Products", "Beauty_and_Personal_Care", "Books", "CDs_and_Vinyl",
   "Cell_Phones_and_Accessories", "Clothing_Shoes_and_Jewelry", "Digital_Music", "Electronics",
   "Gift_Cards", "Grocery_and_Gourmet_Food", "Handmade_Products", "Health_and_Household",
   "Health_and_Personal_Care", "Home_and_Kitchen", "Industrial_and_Scientific", "Kindle_Store",
   "Magazine_Subscriptions", "Movies_and_TV", "Musical_Instruments", "Office_Products",
   "Patio_Lawn_and_Garden", "Pet_Supplies", "Software", "Sports_and_Outdoors",
   "Subscription_Boxes", "Tools_and_Home_Improvement", "Toys_and_Games", "Video_Games", "Unknown"]

/-- The archive extension chosen for a compression format (source line 68). -/
def extFor (compression_format : String) : String :=
  if compression_format == "gz" then ".tar.gz"
  else if compression_format == "bz2" then ".tar.bz2"
  else ".tar.xz"

/-- `compress_folder(folder, compression_format, level)`: compress a folder into
a tar archive and delete the original folder.  Returns the outcome together
with the resulting filesystem and the effect trace.  The
`compresslevel=level if compression_format == "gz" else None` argument of
`tarfile.open` makes the non-gz branches raise a `TypeError` (see module
header); for "xz" the `LZMAFile` constructor has already created the archive
file when the error is raised. -/
def compress_folder (fs : FS) (folder : FPath) (compression_format : String)
    (level : Int) : Except Err FPath × FS × List Event :=
  if ¬ (1 ≤ level ∧ level ≤ 9) then (.error (.badLevel level), fs, [])
  else
    let ext := extFor compression_format
    let archive_path := withSuffix folder ext
    if compression_format == "gz" then
      let fs1 := insertNode fs archive_path
      let fs2 := rmtree fs1 folder
      (.ok archive_path, fs2,
        [.tarCreate archive_path (folder.getLastD ""), .rmtreeDir folder])
    else if compression_format == "bz2" then
      (.error (.tarLevelTypeError "bz2"), fs, [])
    else
      (.error (.tarLevelTypeError "xz"), insertNode fs archive_path, [])

/-- The folder name `raw_<type>_<category>` (source line 79). -/
def folderName (dataset_type category : String) : String := s!"raw_{dataset_type}_{category}"

/-- The skip status message (source line 83). -/
def skipMsg (folder_name : String) : String := s!"[SKIP] {folder_name} already exists"

/-- The plain done status message (source line 90). -/
def doneMsg (folder_name : String) : String := s!"[DONE] {folder_name} downloaded"

/-- The compressed done status message (source line 89). -/
def doneCompressedMsg (folder_name fmtU : String) (compression_level : Int) : String :=
  s!"[DONE] {folder_name} downloaded and compressed with {fmtU} level {compression_level}"

/-- `process_dataset(dataset_type, category, base_save_path, compress,
compression_format, compression_level)`: download and save a specific dataset
type for a category.  `fetch` is the `load_dataset` oracle, keyed by the
dataset name `raw_<type>_<category>`. -/
def process_dataset (fetch : String → Except Err Dataset) (dataset_type category : String)
    (base_save_path : FPath) (compress : Bool) (compression_format : String)
    (compression_level : Int) (fs : FS) : Except Err String × FS × List Event :=
  let folder_name := folderName dataset_type category
  let dataset_path := base_save_path ++ [folder_name]
  let compressed_paths := [".tar.gz", ".tar.bz2", ".tar.xz"].map (withSuffix dataset_path)
  if pathExists fs dataset_path || compressed_paths.any (pathExists fs) then
    (.ok (skipMsg folder_name), fs, [])
  else
    match fetch folder_name with
    | .error e => (.error e, fs, [.fetch folder_name])
    | .ok dataset =>
      let fs1 := mkdirParents fs dataset_path
      let fs2 := save_to_disk fs1 dataset_path dataset
      if compress then
        match compress_folder fs2 dataset_path compression_format compression_level with
        | (.error e, fs3, evs) => (.error e, fs3, .fetch folder_name :: evs)
        | (.ok _archive_path, fs3, evs) =>
          (.ok (doneCompressedMsg folder_name compression_format.toUpper compression_level),
            fs3, .fetch folder_name :: evs)
      else
        (.ok (doneMsg folder_name), fs2, [.fetch folder_name])

/-- The process-wide `datasets.config` state the script mutates. -/
structure Config where
  HF_DATASETS_CACHE : FPath
  deriving Repr, DecidableEq

/-- `get_cache_directory(verbose=False)`: read the cache directory from the
library configuration (console output elided). -/
def get_cache_directory (cfg : Config) : FPath := cfg.HF_DATASETS_CACHE

/-- `delete_cache_directory()`: delete the cache directory if it exists
(best-effort `shutil.rmtree(..., ignore_errors=True)`). -/
def delete_cache_directory (cfg : Config) (fs : FS) : FS :=
  let cache_path := cfg.HF_DATASETS_CACHE
  if pathExists fs cache_path then rmtree fs cache_path else fs

/-- The resolved form of the hard-coded `"E:/hf_cache"` assigned on line 95. -/
def eDriveCache : FPath := ["E:", "hf_cache"]

/-- `p in q.parents`: `p` is a strict ancestor of `q`. -/
def inParents (p q : FPath) : Bool := descOf p q && p != q

/-- The loop-carried state of the batch loop: filesystem, the two result
lists, and the effect trace. -/
structure LoopState where
  fs : FS
  successful : List String
  failed : List (String × String)
  trace : List Event
  deriving Repr, DecidableEq

/-- The `try`/`except` body of one iteration of the batch loop (source lines
120-130): process "review" then "meta"; on the first exception record the
category with `str(e)` in `failed`, otherwise append it to `successful`. -/
def stepCategoryBody (fetch : String → Except Err Dataset) (base_save_path : FPath)
    (compress : Bool) (compression_format : String) (compression_level : Int)
    (st : LoopState) (category : String) : LoopState :=
  match process_dataset fetch "review" category base_save_path compress compression_format
      compression_level st.fs with
  | (.error e, fs1, tr1) =>
      { fs := fs1, successful := st.successful,
        failed := st.failed ++ [(category, e.msg)], trace := st.trace ++ tr1 }
  | (.ok _reviewResult, fs1, tr1) =>
      match process_dataset fetch "meta" category base_save_path compress compression_format
          compression_level fs1 with
      | (.error e, fs2, tr2) =>
          { fs := fs2, successful := st.successful,
            failed := st.failed ++ [(category, e.msg)], trace := st.trace ++ tr1 ++ tr2 }
      | (.ok _metaResult, fs2, tr2) =>
          { fs := fs2, successful := st.successful ++ [category],
            failed := st.failed, trace := st.trace ++ tr1 ++ tr2 }

/-- One full iteration of the batch loop: the `try`/`except` body followed by
the `finally` block (source lines 131-133:
`if cache_path.exists(): shutil.rmtree(cache_path, ignore_errors=True)`). -/
def stepCategory (fetch : String → Except Err Dataset) (base_save_path : FPath)
    (compress : Bool) (compression_format : String) (compression_level : Int)
    (cache_path : FPath) (st : LoopState) (category : String) : LoopState :=
  let st1 := stepCategoryBody fetch base_save_path compress compression_format
    compression_level st category
  { st1 with fs := if pathExists st1.fs cache_path then rmtree st1.fs cache_path else st1.fs }

/-- The final summary: the `successful` and `failed` lists the run reports. -/
structure Summary where
  successful : List String
  failed : List (String × String)
  deriving Repr, DecidableEq

instance {ε α : Type} [DecidableEq ε] [DecidableEq α] : DecidableEq (Except ε α) :=
  fun a b =>
    match a, b with
    | .ok x, .ok y => decidable_of_iff (x = y) (by simp)
    | .error x, .error y => decidable_of_iff (x = y) (by simp)
    | .ok _, .error _ => .isFalse (by simp)
    | .error _, .ok _ => .isFalse (by simp)

/-- The full observable result of a run: the outcome (summary or raised
exception), the final library configuration, filesystem, and effect trace. -/
structure RunResult where
  outcome : Except Err Summary
  cfg : Config
  fs : FS
  trace : List Event
  deriving Repr, DecidableEq

/-- The loop state just before the batch loop starts:
`base_save_path.mkdir(parents=True, exist_ok=True)` has run, both result
lists are empty, nothing has happened yet. -/
def batchInit (base_save_path : FPath) (fs : FS) : LoopState :=
  ⟨mkdirParents fs base_save_path, [], [], []⟩

/-- The batch loop (source lines 118-133) over a category list. -/
def batchRun (fetch : String → Except Err Dataset) (base_save_path : FPath)
    (compress : Bool) (compression_format : String) (compression_level : Int)
    (cache_path : FPath) (categories : List String) (fs : FS) : LoopState :=
  categories.foldl
    (stepCategory fetch base_save_path compress compression_format compression_level cache_path)
    (batchInit base_save_path fs)

/-- `download_all_amazon_reviews` after the category validation succeeded with
`categories` the effective category list (source lines 102-139). -/
def runValidated (fetch : String → Except Err Dataset) (base_save_path : FPath)
    (categories : List String) (compress : Bool) (compression_format : String)
    (compression_level : Int) (cfg : Config) (fs : FS) : RunResult :=
  if ¬ (1 ≤ compression_level ∧ compression_level ≤ 9) then
    ⟨.error (.badLevel compression_level), cfg, fs, []⟩
  else if ¬ (compression_format ∈ ["gz", "bz2", "xz"]) then
    ⟨.error (.badFormat compression_format), cfg, fs, []⟩
  else
    let cache_path := get_cache_directory cfg
    if base_save_path == cache_path || inParents base_save_path cache_path
        || inParents cache_path base_save_path then
      ⟨.error .pathOverlap, cfg, fs, []⟩
    else
      let final := batchRun fetch base_save_path compress compression_format compression_level
        cache_path categories fs
      ⟨.ok ⟨final.successful, final.failed⟩, cfg, final.fs, final.trace⟩

/-- `download_all_amazon_reviews(base_save_path, categories, compress,
compression_format, compression_level)`.  `cfg0` is the library configuration
at call time; the first action (source line 95) overwrites it with the
hard-coded cache location, before any validation. -/
def download_all_amazon_reviews (fetch : String → Except Err Dataset)
    (base_save_path : FPath) (categories : Option (List String)) (compress : Bool)
    (compression_format : String) (compression_level : Int)
    (cfg0 : Config) (fs : FS) : RunResult :=
  let _ := cfg0
  let cfg : Config := { HF_DATASETS_CACHE := eDriveCache }
  match categories with
  | none =>
      runValidated fetch base_save_path VALID_CATEGORIES compress compression_format
        compression_level cfg fs
  | some cats =>
      let invalid := (cats.filter (fun c => decide (c ∉ VALID_CATEGORIES))).dedup
      if invalid ≠ [] then ⟨.error (.invalidCategories invalid), cfg, fs, []⟩
      else
        runValidated fetch base_save_path cats compress compression_format
          compression_level cfg fs

/-! ## Basic lemmas about the filesystem model -/

theorem descOf_refl (p : FPath) : descOf p p = true := by
  induction p with
  | nil => rfl
  | cons a as ih => simp [descOf, ih]

theorem pathExists_rmtree_self (fs : FS) (p : FPath) : pathExists (rmtree fs p) p = false := by
  simp [pathExists, rmtree, List.mem_filter, descOf_refl]

theorem pathExists_delete_cache (cfg : Config) (fs : FS) :
    pathExists (delete_cache_directory cfg fs) cfg.HF_DATASETS_CACHE = false := by
  unfold delete_cache_directory
  cases h : pathExists fs cfg.HF_DATASETS_CACHE with
  | true => simp [h, pathExists_rmtree_self]
  | false => simp [h]

/-- The `finally` block of the loop body is extensionally the Cache Inspector
delete operation applied to the state the `try`/`except` part produced. -/
theorem stepCategory_fs (fetch : String → Except Err Dataset) (base_save_path : FPath)
    (compress : Bool) (compression_format : String) (compression_level : Int)
    (cache_path : FPath) (st : LoopState) (category : String) :
    (stepCategory fetch base_save_path compress compression_format compression_level cache_path
        st category).fs
      = delete_cache_directory ⟨cache_path⟩
          (stepCategoryBody fetch base_save_path compress compression_format compression_level
            st category).fs := rfl

theorem runValidated_cfg (fetch : String → Except Err Dataset) (base_save_path : FPath)
    (categories : List String) (compress : Bool) (compression_format : String)
    (compression_level : Int) (cfg : Config) (fs : FS) :
    (runValidated fetch base_save_path categories compress compression_format compression_level
      cfg fs).cfg = cfg := by
  unfold runValidated
  split_ifs with h1 h2 <;>
    first
      | rfl
      | (dsimp only; split <;> rfl)

/-! ## Claim theorems -/

/-- C9: `download_all_amazon_reviews` overwrites the process-wide cache
configuration with the hard-coded location as its first action, before any
validation, so every call — including those that end in an invalid-argument
error — leaves the configuration mutated to that location, whatever it was
before. -/
theorem c9_config_overwritten_unconditionally (fetch : String → Except Err Dataset)
    (base_save_path : FPath) (categories : Option (List String)) (compress : Bool)
    (compression_format : String) (compression_level : Int) (cfg0 : Config) (fs : FS) :
    (download_all_amazon_reviews fetch base_save_path categories compress compression_format
        compression_level cfg0 fs).cfg = ⟨eDriveCache⟩ := by
  unfold download_all_amazon_reviews
  cases categories with
  | none => exact runValidated_cfg ..
  | some cats =>
    dsimp only
    split
    · rfl
    · exact runValidated_cfg ..

/-- C8: every iteration of the batch loop — whether the category succeeds, is
skipped, or fails — ends by purging the cache directory, and its effect on the
filesystem is exactly the Cache Inspector delete operation applied after the
category's processing; the remaining categories run from that purged state. -/
theorem c8_cache_purged_after_each_category (fetch : String → Except Err Dataset)
    (base_save_path : FPath) (compress : Bool) (compression_format : String)
    (compression_level : Int) (cache_path : FPath) (init : LoopState)
    (done : List String) (c : String) (rest : List String) :
    (stepCategory fetch base_save_path compress compression_format compression_level cache_path
        (done.foldl (stepCategory fetch base_save_path compress compression_format
          compression_level cache_path) init) c).fs
      = delete_cache_directory ⟨cache_path⟩
          (stepCategoryBody fetch base_save_path compress compression_format compression_level
            (done.foldl (stepCategory fetch base_save_path compress compression_format
              compression_level cache_path) init) c).fs
    ∧ pathExists
        (stepCategory fetch base_save_path compress compression_format compression_level
          cache_path
          (done.foldl (stepCategory fetch base_save_path compress compression_format
            compression_level cache_path) init) c).fs cache_path = false
    ∧ (done ++ c :: rest).foldl
        (stepCategory fetch base_save_path compress compression_format compression_level
          cache_path) init
      = rest.foldl
          (stepCategory fetch base_save_path compress compression_format compression_level
            cache_path)
          (stepCategory fetch base_save_path compress compression_format compression_level
            cache_path
            (done.foldl (stepCategory fetch base_save_path compress compression_format
              compression_level cache_path) init) c) := by
  refine ⟨rfl, ?_, ?_⟩
  · rw [stepCategory_fs]
    exact pathExists_delete_cache ⟨cache_path⟩ _
  · rw [List.foldl_append]
    rfl

/-- C2 names a code bug: for the "bz2" and "xz" formats with a valid level,
`compress_folder` does not accept the level and produce the archive; the
`compresslevel=None` it passes to `tarfile.open` raises a `TypeError` (for
"xz" after an empty archive file has already been created).  Only the "gz"
format succeeds. -/
theorem c2_bz2_xz_raise_typeerror :
    compress_folder [["b"], ["b", "folder"]] ["b", "folder"] "bz2" 6
      = (.error (.tarLevelTypeError "bz2"), [["b"], ["b", "folder"]], [])
    ∧ compress_folder [["b"], ["b", "folder"]] ["b", "folder"] "xz" 6
      = (.error (.tarLevelTypeError "xz"), [["b"], ["b", "folder"], ["b", "folder.tar.xz"]], [])
    ∧ (compress_folder [["b"], ["b", "folder"]] ["b", "folder"] "gz" 6).1
      = .ok ["b", "folder.tar.gz"] := by decide

/-- C6 fails as stated on folders whose base name contains a dot:
`Path.with_suffix` replaces the existing suffix, so compressing `b/data.v2`
with "gz" succeeds but writes the archive to `b/data.tar.gz`, and no node is
created at the folder's path with the conventional extension,
`b/data.v2.tar.gz`. -/
theorem c6_with_suffix_counterexample :
    compress_folder [["b"], ["b", "data.v2"]] ["b", "data.v2"] "gz" 6
      = (.ok ["b", "data.tar.gz"], [["b"], ["b", "data.tar.gz"]],
         [.tarCreate ["b", "data.tar.gz"] "data.v2", .rmtreeDir ["b", "data.v2"]])
    ∧ ["b", "data.v2.tar.gz"] ∉
        (compress_folder [["b"], ["b", "data.v2"]] ["b", "data.v2"] "gz" 6).2.1 := by
  decide

/-- When every requested category is in the registry, the computed invalid
set is empty. -/
theorem invalidOf_eq_nil {cats : List String} (h : ∀ c ∈ cats, c ∈ VALID_CATEGORIES) :
    (cats.filter (fun c => decide (c ∉ VALID_CATEGORIES))).dedup = [] := by
  have hf : cats.filter (fun c => decide (c ∉ VALID_CATEGORIES)) = [] := by
    rw [List.filter_eq_nil_iff]
    intro a ha
    simp only [decide_eq_true_eq]
    exact not_not_intro (h a ha)
  rw [hf, List.dedup_nil]

/-- The invalid-argument message for a bad compression level names the value. -/
theorem Err_msg_badLevel (l : Int) :
    (Err.badLevel l).msg = "Compression level must be between 1 and 9, got " ++ toString l := by
  show ("Compression level must be between 1 and 9, got " : String) ++ toString l ++ "" = _
  rw [String.append_empty]

/-- C4: a request containing a category outside the registry is rejected with
an invalid-argument error carrying exactly the invalid entries, with the
filesystem untouched and no fetch performed. -/
theorem c4_invalid_categories_rejected (fetch : String → Except Err Dataset)
    (base_save_path : FPath) (cats : List String) (compress : Bool)
    (compression_format : String) (compression_level : Int) (cfg0 : Config) (fs : FS)
    (h : ∃ c ∈ cats, c ∉ VALID_CATEGORIES) :
    download_all_amazon_reviews fetch base_save_path (some cats) compress compression_format
        compression_level cfg0 fs
      = ⟨.error (.invalidCategories
            ((cats.filter (fun c => decide (c ∉ VALID_CATEGORIES))).dedup)),
         ⟨eDriveCache⟩, fs, []⟩
    ∧ ∀ c ∈ cats,
        (c ∉ VALID_CATEGORIES
          ↔ c ∈ (cats.filter (fun c => decide (c ∉ VALID_CATEGORIES))).dedup) := by
  obtain ⟨bad, hbad, hnot⟩ := h
  constructor
  · unfold download_all_amazon_reviews
    dsimp only
    rw [if_pos]
    exact List.ne_nil_of_mem
      (List.mem_dedup.mpr (List.mem_filter.mpr ⟨hbad, by simpa using hnot⟩))
  · intro c hc
    simp [List.mem_dedup, List.mem_filter, hc]

/-- C5: for every compression level outside [1,9] the Archiver rejects it with
an error naming the value; and, provided the requested categories pass the
(earlier) registry validation, the top-level entry point rejects the same way
before any per-category work: the filesystem is untouched and the trace empty. -/
theorem c5_bad_level_rejected (fetch : String → Except Err Dataset) (base_save_path : FPath)
    (cats : List String) (compress : Bool) (compression_format : String)
    (compression_level : Int) (cfg0 : Config) (fs fsA : FS) (folder : FPath) (fmtA : String)
    (hlvl : ¬ (1 ≤ compression_level ∧ compression_level ≤ 9))
    (hcats : ∀ c ∈ cats, c ∈ VALID_CATEGORIES) :
    download_all_amazon_reviews fetch base_save_path (some cats) compress compression_format
        compression_level cfg0 fs
      = ⟨.error (.badLevel compression_level), ⟨eDriveCache⟩, fs, []⟩
    ∧ compress_folder fsA folder fmtA compression_level
      = (.error (.badLevel compression_level), fsA, [])
    ∧ (Err.badLevel compression_level).msg
      = "Compression level must be between 1 and 9, got " ++ toString compression_level := by
  refine ⟨?_, ?_, Err_msg_badLevel compression_level⟩
  · have hinv := invalidOf_eq_nil hcats
    unfold download_all_amazon_reviews
    dsimp only
    rw [if_neg (not_ne_iff.mpr hinv)]
    unfold runValidated
    rw [if_pos hlvl]
  · unfold compress_folder
    rw [if_pos hlvl]

theorem c5_bad_level_rejected_witness :
    download_all_amazon_reviews (fun _ => .ok []) ["out"] (some ["Books"]) false "gz" 0 ⟨[]⟩ []
      = ⟨.error (.badLevel 0), ⟨eDriveCache⟩, [], []⟩
    ∧ compress_folder [["b"]] ["b", "folder"] "gz" 0
      = (.error (.badLevel 0), [["b"]], [])
    ∧ (Err.badLevel 0).msg
      = "Compression level must be between 1 and 9, got " ++ toString (0 : Int) :=
  c5_bad_level_rejected (fun _ => .ok []) ["out"] ["Books"] false "gz" 0 ⟨[]⟩ [] [["b"]]
    ["b", "folder"] "gz" (by decide) (by decide)

theorem c4_invalid_categories_rejected_witness :
    download_all_amazon_reviews (fun _ => .ok []) ["out"] (some ["Books", "Nope"]) false "gz" 6
        ⟨[]⟩ [[ "seed" ]]
      = ⟨.error (.invalidCategories
            ((["Books", "Nope"].filter (fun c => decide (c ∉ VALID_CATEGORIES))).dedup)),
         ⟨eDriveCache⟩, [[ "seed" ]], []⟩
    ∧ ∀ c ∈ ["Books", "Nope"],
        (c ∉ VALID_CATEGORIES
          ↔ c ∈ (["Books", "Nope"].filter (fun c => decide (c ∉ VALID_CATEGORIES))).dedup) :=
  c4_invalid_categories_rejected (fun _ => .ok []) ["out"] ["Books", "Nope"] false "gz" 6
    ⟨[]⟩ [[ "seed" ]] (by decide)

/-- C7: with valid categories, level and format, a base path equal to the
(overwritten) cache location or related to it by strict ancestry is rejected
with the configuration error, before the base directory is created and before
any per-category work. -/
theorem c7_overlapping_paths_rejected (fetch : String → Except Err Dataset)
    (base_save_path : FPath) (cats : List String) (compress : Bool)
    (compression_format : String) (compression_level : Int) (cfg0 : Config) (fs : FS)
    (hcats : ∀ c ∈ cats, c ∈ VALID_CATEGORIES)
    (hlvl : 1 ≤ compression_level ∧ compression_level ≤ 9)
    (hfmt : compression_format ∈ ["gz", "bz2", "xz"])
    (hover : base_save_path = eDriveCache ∨ inParents base_save_path eDriveCache = true
      ∨ inParents eDriveCache base_save_path = true) :
    download_all_amazon_reviews fetch base_save_path (some cats) compress compression_format
        compression_level cfg0 fs
      = ⟨.error .pathOverlap, ⟨eDriveCache⟩, fs, []⟩ := by
  have hinv := invalidOf_eq_nil hcats
  unfold download_all_amazon_reviews
  dsimp only
  rw [if_neg (not_ne_iff.mpr hinv)]
  unfold runValidated
  rw [if_neg (not_not.mpr hlvl), if_neg (not_not.mpr hfmt)]
  dsimp only
  rw [if_pos]
  rcases hover with h | h | h <;> simp [get_cache_directory, h]

theorem c7_overlapping_paths_rejected_witness :
    download_all_amazon_reviews (fun _ => .ok []) ["E:"] (some ["Books"]) false "gz" 6 ⟨[]⟩ []
      = ⟨.error .pathOverlap, ⟨eDriveCache⟩, [], []⟩ :=
  c7_overlapping_paths_rejected (fun _ => .ok []) ["E:"] ["Books"] false "gz" 6 ⟨[]⟩ []
    (by decide) (by decide) (by decide) (by decide)

/-! ## Suffix arithmetic -/

theorem lastDotIdx_eq_none_iff (cs : List Char) : lastDotIdx cs = none ↔ '.' ∉ cs := by
  induction cs with
  | nil => simp [lastDotIdx]
  | cons c cs ih =>
    simp only [lastDotIdx, List.mem_cons]
    cases h : lastDotIdx cs with
    | some i =>
      have hmem : '.' ∈ cs := by
        by_contra hm
        exact absurd (ih.mpr hm) (by simp [h])
      simp [hmem]
    | none =>
      have hm : '.' ∉ cs := ih.mp h
      by_cases hc : c = '.'
      · simp [hc]
      · simp [hc, hm]
        exact fun hh => hc hh.symm

theorem pyStem_of_noDot {name : String} (h : '.' ∉ name.data) : pyStem name = name := by
  simp only [pyStem]
  rw [(lastDotIdx_eq_none_iff name.data).mpr h]

theorem withSuffix_concat (base : FPath) (n ext : String) :
    withSuffix (base ++ [n]) ext = base ++ [pyStem n ++ ext] := by
  induction base with
  | nil => rfl
  | cons a t ih =>
    cases t with
    | nil => rfl
    | cons b t2 =>
      show a :: withSuffix ((b :: t2) ++ [n]) ext = a :: ((b :: t2) ++ [pyStem n ++ ext])
      rw [ih]

/-- No category of the registry contains a dot in its name. -/
theorem validCategories_noDot : ∀ c ∈ VALID_CATEGORIES, '.' ∉ c.data := by decide

/-- A `raw_<type>_<category>` folder name contains no dot when neither part
does. -/
theorem noDot_folderName {t c : String} (ht : '.' ∉ t.data) (hc : '.' ∉ c.data) :
    '.' ∉ (folderName t c).data := by
  have heq : folderName t c = "raw_" ++ t ++ "_" ++ c ++ "" := rfl
  rw [heq]
  simp only [String.data_append, List.mem_append]
  intro h
  rcases h with ((((h | h) | h) | h) | h)
  · exact absurd h (by decide)
  · exact ht h
  · exact absurd h (by decide)
  · exact hc h
  · exact absurd h (by decide)

/-- C1: for the two dataset types and every registry category, if the target
folder exists or a file at that location with any of the three archive
extensions exists, `process_dataset` returns the skip status at once: the
filesystem is returned unchanged, the trace is empty, and the result does not
depend on the fetch oracle. -/
theorem c1_existing_output_skips (fetch : String → Except Err Dataset)
    (dataset_type category : String) (base_save_path : FPath) (compress : Bool)
    (compression_format : String) (compression_level : Int) (fs : FS)
    (hdt : dataset_type ∈ (["review", "meta"] : List String))
    (hcat : category ∈ VALID_CATEGORIES)
    (hex : base_save_path ++ [folderName dataset_type category] ∈ fs
      ∨ base_save_path ++ [folderName dataset_type category ++ ".tar.gz"] ∈ fs
      ∨ base_save_path ++ [folderName dataset_type category ++ ".tar.bz2"] ∈ fs
      ∨ base_save_path ++ [folderName dataset_type category ++ ".tar.xz"] ∈ fs) :
    process_dataset fetch dataset_type category base_save_path compress compression_format
        compression_level fs
      = (.ok (skipMsg (folderName dataset_type category)), fs, []) := by
  have hdtd : '.' ∉ dataset_type.data := by
    simp only [List.mem_cons, List.mem_singleton] at hdt
    rcases hdt with h | h | h
    · subst h; decide
    · subst h; decide
    · cases h
  have hnd : '.' ∉ (folderName dataset_type category).data :=
    noDot_folderName hdtd (validCategories_noDot category hcat)
  have hws : ∀ ext : String,
      withSuffix (base_save_path ++ [folderName dataset_type category]) ext
        = base_save_path ++ [folderName dataset_type category ++ ext] := by
    intro ext
    rw [withSuffix_concat, pyStem_of_noDot hnd]
  have hcond : (pathExists fs (base_save_path ++ [folderName dataset_type category])
      || ([".tar.gz", ".tar.bz2", ".tar.xz"].map
            (withSuffix (base_save_path ++ [folderName dataset_type category]))).any
          (pathExists fs)) = true := by
    simp only [List.map_cons, List.map_nil, List.any_cons, List.any_nil, hws, pathExists,
      Bool.or_eq_true, decide_eq_true_eq, Bool.or_false]
    tauto
  unfold process_dataset
  dsimp only
  rw [if_pos hcond]

theorem c1_existing_output_skips_witness :
    process_dataset (fun _ => .error (.fetchFail "offline")) "review" "Books" ["out"] false
        "gz" 6 [["out", "raw_review_Books.tar.gz"]]
      = (.ok (skipMsg (folderName "review" "Books")),
         [["out", "raw_review_Books.tar.gz"]], []) :=
  c1_existing_output_skips (fun _ => .error (.fetchFail "offline")) "review" "Books" ["out"]
    false "gz" 6 [["out", "raw_review_Books.tar.gz"]] (by decide) (by decide) (by decide)

/-! ## Batch loop bookkeeping -/

/-- Each loop iteration either records the category as failed with some
message (leaving `successful` unchanged) or appends it to `successful`
(leaving `failed` unchanged). -/
theorem stepCategory_shape (fetch : String → Except Err Dataset) (base_save_path : FPath)
    (compress : Bool) (compression_format : String) (compression_level : Int)
    (cache_path : FPath) (st : LoopState) (category : String) :
    (∃ m, (stepCategory fetch base_save_path compress compression_format compression_level
          cache_path st category).successful = st.successful
        ∧ (stepCategory fetch base_save_path compress compression_format compression_level
            cache_path st category).failed = st.failed ++ [(category, m)])
    ∨ ((stepCategory fetch base_save_path compress compression_format compression_level
          cache_path st category).successful = st.successful ++ [category]
        ∧ (stepCategory fetch base_save_path compress compression_format compression_level
            cache_path st category).failed = st.failed) := by
  unfold stepCategory stepCategoryBody
  rcases hr : process_dataset fetch "review" category base_save_path compress
      compression_format compression_level st.fs with ⟨r1, fs1, tr1⟩
  cases r1 with
  | error e =>
    left
    exact ⟨e.msg, by simp [hr], by simp [hr]⟩
  | ok msg1 =>
    rcases hm : process_dataset fetch "meta" category base_save_path compress
        compression_format compression_level fs1 with ⟨r2, fs2, tr2⟩
    cases r2 with
    | error e =>
      left
      exact ⟨e.msg, by simp [hr, hm], by simp [hr, hm]⟩
    | ok msg2 =>
      right
      exact ⟨by simp [hr, hm], by simp [hr, hm]⟩

theorem foldl_step_count (fetch : String → Except Err Dataset) (base_save_path : FPath)
    (compress : Bool) (compression_format : String) (compression_level : Int)
    (cache_path : FPath) (cats : List String) (st : LoopState) :
    ((cats.foldl (stepCategory fetch base_save_path compress compression_format
        compression_level cache_path) st).successful).length
      + ((cats.foldl (stepCategory fetch base_save_path compress compression_format
          compression_level cache_path) st).failed).length
      = st.successful.length + st.failed.length + cats.length := by
  induction cats generalizing st with
  | nil => simp
  | cons d cats ih =>
    rw [List.foldl_cons, ih]
    rcases stepCategory_shape fetch base_save_path compress compression_format
        compression_level cache_path st d with ⟨m, hs, hf⟩ | ⟨hs, hf⟩ <;>
      simp only [hs, hf, List.length_append, List.length_cons, List.length_nil] <;> omega

theorem foldl_step_perm (fetch : String → Except Err Dataset) (base_save_path : FPath)
    (compress : Bool) (compression_format : String) (compression_level : Int)
    (cache_path : FPath) (cats : List String) (st : LoopState) :
    ((cats.foldl (stepCategory fetch base_save_path compress compression_format
        compression_level cache_path) st).successful
      ++ (cats.foldl (stepCategory fetch base_save_path compress compression_format
          compression_level cache_path) st).failed.map Prod.fst).Perm
      ((st.successful ++ st.failed.map Prod.fst) ++ cats) := by
  induction cats generalizing st with
  | nil => simp
  | cons d cats ih =>
    rw [List.foldl_cons]
    refine (ih _).trans ?_
    have hstep : (((stepCategory fetch base_save_path compress compression_format
          compression_level cache_path st d).successful
        ++ (stepCategory fetch base_save_path compress compression_format
            compression_level cache_path st d).failed.map Prod.fst)).Perm
        ((st.successful ++ st.failed.map Prod.fst) ++ [d]) := by
      rcases stepCategory_shape fetch base_save_path compress compression_format
          compression_level cache_path st d with ⟨m, hs, hf⟩ | ⟨hs, hf⟩
      · rw [hs, hf, List.map_append, ← List.append_assoc]
        exact List.Perm.refl _
      · rw [hs, hf, List.append_assoc st.successful [d] (st.failed.map Prod.fst),
          List.append_assoc st.successful (st.failed.map Prod.fst) [d]]
        exact List.Perm.append_left _ List.perm_append_comm
    have hrest : ((st.successful ++ st.failed.map Prod.fst) ++ [d]) ++ cats
        = (st.successful ++ st.failed.map Prod.fst) ++ (d :: cats) := by
      rw [List.append_assoc, List.singleton_append]
    exact (hstep.append_right cats).trans (hrest ▸ List.Perm.refl _)

theorem foldl_step_mem (fetch : String → Except Err Dataset) (base_save_path : FPath)
    (compress : Bool) (compression_format : String) (compression_level : Int)
    (cache_path : FPath) (cats : List String) (st : LoopState) (d : String) (hd : d ∈ cats) :
    d ∈ (cats.foldl (stepCategory fetch base_save_path compress compression_format
          compression_level cache_path) st).successful
    ∨ d ∈ (cats.foldl (stepCategory fetch base_save_path compress compression_format
          compression_level cache_path) st).failed.map Prod.fst := by
  have hp := foldl_step_perm fetch base_save_path compress compression_format
    compression_level cache_path cats st
  have hmem := hp.mem_iff.mpr (List.mem_append_right (st.successful ++ st.failed.map Prod.fst) hd)
  simpa using hmem

theorem foldl_step_failed_mono (fetch : String → Except Err Dataset) (base_save_path : FPath)
    (compress : Bool) (compression_format : String) (compression_level : Int)
    (cache_path : FPath) (cats : List String) (x : String × String) :
    ∀ st : LoopState, x ∈ st.failed →
      x ∈ (cats.foldl (stepCategory fetch base_save_path compress compression_format
            compression_level cache_path) st).failed := by
  induction cats with
  | nil => intro st hx; simpa using hx
  | cons d cats ih =>
    intro st hx
    rw [List.foldl_cons]
    apply ih
    rcases stepCategory_shape fetch base_save_path compress compression_format
        compression_level cache_path st d with ⟨m, _, hf⟩ | ⟨_, hf⟩ <;> simp [hf, hx]

/-- C10: at the end of every completed run, the summary's success count plus
failure count equals the number of requested categories, and the two result
lists together are a permutation of the requested list (every requested
category occurrence lands in exactly one of them). -/
theorem c10_summary_partitions_categories (fetch : String → Except Err Dataset)
    (base_save_path : FPath) (cats : List String) (compress : Bool)
    (compression_format : String) (compression_level : Int) (cfg0 : Config) (fs : FS)
    (s : Summary)
    (h : (download_all_amazon_reviews fetch base_save_path (some cats) compress
        compression_format compression_level cfg0 fs).outcome = .ok s) :
    s.successful.length + s.failed.length = cats.length
    ∧ (s.successful ++ s.failed.map Prod.fst).Perm cats := by
  unfold download_all_amazon_reviews at h
  dsimp only at h
  split at h
  · exact absurd h (by simp)
  · unfold runValidated at h
    split at h
    · exact absurd h (by simp)
    · split at h
      · exact absurd h (by simp)
      · dsimp only at h
        split at h
        · exact absurd h (by simp)
        · dsimp only at h
          injection h with h
          subst h
          constructor
          · have hc := foldl_step_count fetch base_save_path compress compression_format
              compression_level (get_cache_directory ⟨eDriveCache⟩) cats
              (batchInit base_save_path fs)
            simpa [batchRun, batchInit] using hc
          · have hp := foldl_step_perm fetch base_save_path compress compression_format
              compression_level (get_cache_directory ⟨eDriveCache⟩) cats
              (batchInit base_save_path fs)
            simpa [batchRun, batchInit] using hp

theorem c10_summary_partitions_categories_witness :
    ((⟨["Books"], []⟩ : Summary).successful.length + (⟨["Books"], []⟩ : Summary).failed.length
      = (["Books"] : List String).length)
    ∧ (((⟨["Books"], []⟩ : Summary).successful
        ++ (⟨["Books"], []⟩ : Summary).failed.map Prod.fst).Perm ["Books"]) :=
  c10_summary_partitions_categories (fun _ => .ok [["f"]]) ["out"] ["Books"] false "gz" 6
    ⟨[]⟩ [] ⟨["Books"], []⟩ (by decide)

/-- C3: if processing "review" for a category raises, the whole iteration's
effect is exactly the review failure: "meta" is not attempted (the filesystem
and trace gain nothing beyond the review attempt), the category is recorded as
failed with the exception's message, the run completes with a summary (`.ok`)
instead of propagating, and every subsequent category still lands in one of
the two result lists. -/
theorem c3_review_failure_isolated (fetch : String → Except Err Dataset)
    (base_save_path : FPath) (compress : Bool) (compression_format : String)
    (compression_level : Int) (cfg0 : Config) (fs : FS)
    (pre : List String) (cat : String) (post : List String)
    (e : Err) (fs1 : FS) (tr1 : List Event)
    (hcats : ∀ x ∈ pre ++ cat :: post, x ∈ VALID_CATEGORIES)
    (hlvl : 1 ≤ compression_level ∧ compression_level ≤ 9)
    (hfmt : compression_format ∈ ["gz", "bz2", "xz"])
    (hpath : (base_save_path == eDriveCache || inParents base_save_path eDriveCache
        || inParents eDriveCache base_save_path) = false)
    (hfail : process_dataset fetch "review" cat base_save_path compress compression_format
        compression_level
        (batchRun fetch base_save_path compress compression_format compression_level
          eDriveCache pre fs).fs
      = (.error e, fs1, tr1)) :
    (download_all_amazon_reviews fetch base_save_path (some (pre ++ cat :: post)) compress
        compression_format compression_level cfg0 fs).outcome
      = .ok ⟨(batchRun fetch base_save_path compress compression_format compression_level
                eDriveCache (pre ++ cat :: post) fs).successful,
             (batchRun fetch base_save_path compress compression_format compression_level
                eDriveCache (pre ++ cat :: post) fs).failed⟩
    ∧ stepCategory fetch base_save_path compress compression_format compression_level
        eDriveCache
        (batchRun fetch base_save_path compress compression_format compression_level
          eDriveCache pre fs) cat
      = ⟨delete_cache_directory ⟨eDriveCache⟩ fs1,
         (batchRun fetch base_save_path compress compression_format compression_level
           eDriveCache pre fs).successful,
         (batchRun fetch base_save_path compress compression_format compression_level
           eDriveCache pre fs).failed ++ [(cat, e.msg)],
         (batchRun fetch base_save_path compress compression_format compression_level
           eDriveCache pre fs).trace ++ tr1⟩
    ∧ (cat, e.msg) ∈ (batchRun fetch base_save_path compress compression_format
        compression_level eDriveCache (pre ++ cat :: post) fs).failed
    ∧ post.all (fun d =>
        decide (d ∈ (batchRun fetch base_save_path compress compression_format
          compression_level eDriveCache (pre ++ cat :: post) fs).successful)
        || decide (d ∈ ((batchRun fetch base_save_path compress compression_format
            compression_level eDriveCache (pre ++ cat :: post) fs).failed.map Prod.fst)))
      = true := by
  have hinv := invalidOf_eq_nil hcats
  have h2 : stepCategory fetch base_save_path compress compression_format compression_level
      eDriveCache
      (batchRun fetch base_save_path compress compression_format compression_level
        eDriveCache pre fs) cat
      = ⟨delete_cache_directory ⟨eDriveCache⟩ fs1,
         (batchRun fetch base_save_path compress compression_format compression_level
           eDriveCache pre fs).successful,
         (batchRun fetch base_save_path compress compression_format compression_level
           eDriveCache pre fs).failed ++ [(cat, e.msg)],
         (batchRun fetch base_save_path compress compression_format compression_level
           eDriveCache pre fs).trace ++ tr1⟩ := by
    unfold stepCategory stepCategoryBody
    rw [hfail]
    rfl
  have hsplit : batchRun fetch base_save_path compress compression_format compression_level
      eDriveCache (pre ++ cat :: post) fs
      = post.foldl
          (stepCategory fetch base_save_path compress compression_format compression_level
            eDriveCache)
          (stepCategory fetch base_save_path compress compression_format compression_level
            eDriveCache
            (batchRun fetch base_save_path compress compression_format compression_level
              eDriveCache pre fs) cat) := by
    unfold batchRun
    rw [List.foldl_append, List.foldl_cons]
  refine ⟨?_, h2, ?_, ?_⟩
  · unfold download_all_amazon_reviews
    dsimp only
    rw [if_neg (not_ne_iff.mpr hinv)]
    unfold runValidated
    rw [if_neg (not_not.mpr hlvl), if_neg (not_not.mpr hfmt)]
    dsimp only [get_cache_directory]
    rw [if_neg (by simp [hpath])]
  · rw [hsplit]
    refine foldl_step_failed_mono fetch base_save_path compress compression_format
      compression_level eDriveCache post (cat, e.msg) _ ?_
    rw [h2]
    simp
  · rw [List.all_eq_true]
    intro d hd
    simp only [Bool.or_eq_true, decide_eq_true_eq]
    exact foldl_step_mem fetch base_save_path compress compression_format compression_level
      eDriveCache (pre ++ cat :: post) (batchInit base_save_path fs) d (by simp [hd])

theorem c3_review_failure_isolated_witness :
    ((download_all_amazon_reviews
        (fun n => if n == "raw_review_Books" then .error (.fetchFail "boom") else .ok [])
        ["out"] (some ([] ++ "Books" :: ["Software"])) false "gz" 6 ⟨[]⟩ []).outcome
      = .ok ⟨(batchRun
                (fun n => if n == "raw_review_Books" then .error (.fetchFail "boom") else .ok [])
                ["out"] false "gz" 6 eDriveCache ([] ++ "Books" :: ["Software"]) []).successful,
             (batchRun
                (fun n => if n == "raw_review_Books" then .error (.fetchFail "boom") else .ok [])
                ["out"] false "gz" 6 eDriveCache ([] ++ "Books" :: ["Software"]) []).failed⟩)
    ∧ stepCategory
        (fun n => if n == "raw_review_Books" then .error (.fetchFail "boom") else .ok [])
        ["out"] false "gz" 6 eDriveCache
        (batchRun
          (fun n => if n == "raw_review_Books" then .error (.fetchFail "boom") else .ok [])
          ["out"] false "gz" 6 eDriveCache [] []) "Books"
      = ⟨delete_cache_directory ⟨eDriveCache⟩ [[], ["out"]],
         (batchRun
           (fun n => if n == "raw_review_Books" then .error (.fetchFail "boom") else .ok [])
           ["out"] false "gz" 6 eDriveCache [] []).successful,
         (batchRun
           (fun n => if n == "raw_review_Books" then .error (.fetchFail "boom") else .ok [])
           ["out"] false "gz" 6 eDriveCache [] []).failed
           ++ [("Books", (Err.fetchFail "boom").msg)],
         (batchRun
           (fun n => if n == "raw_review_Books" then .error (.fetchFail "boom") else .ok [])
           ["out"] false "gz" 6 eDriveCache [] []).trace ++ [.fetch "raw_review_Books"]⟩
    ∧ ("Books", (Err.fetchFail "boom").msg) ∈ (batchRun
        (fun n => if n == "raw_review_Books" then .error (.fetchFail "boom") else .ok [])
        ["out"] false "gz" 6 eDriveCache ([] ++ "Books" :: ["Software"]) []).failed
    ∧ (["Software"].all (fun d =>
        decide (d ∈ (batchRun
          (fun n => if n == "raw_review_Books" then .error (.fetchFail "boom") else .ok [])
          ["out"] false "gz" 6 eDriveCache ([] ++ "Books" :: ["Software"]) []).successful)
        || decide (d ∈ ((batchRun
            (fun n => if n == "raw_review_Books" then .error (.fetchFail "boom") else .ok [])
            ["out"] false "gz" 6 eDriveCache ([] ++ "Books" :: ["Software"]) []).failed.map
              Prod.fst)))
      = true) :=
  c3_review_failure_isolated
    (fun n => if n == "raw_review_Books" then .error (.fetchFail "boom") else .ok [])
    ["out"] false "gz" 6 ⟨[]⟩ [] [] "Books" ["Software"] (.fetchFail "boom") [[], ["out"]]
    [.fetch "raw_review_Books"] (by decide) (by decide) (by decide) (by decide) (by decide)

/-! ## Archiver correctness for dot-free folder names -/

theorem insertNode_mem_self (fs : FS) (p : FPath) : p ∈ insertNode fs p := by
  unfold insertNode
  split
  · assumption
  · simp

theorem descOf_append_same (xs p q : FPath) : descOf (xs ++ p) (xs ++ q) = descOf p q := by
  induction xs with
  | nil => rfl
  | cons a t ih => simp [descOf, ih]

theorem extFor_length_pos (compression_format : String) :
    0 < (extFor compression_format).length := by
  unfold extFor
  split_ifs <;> decide

theorem ne_self_append_ext (n : String) (compression_format : String) :
    n ≠ n ++ extFor compression_format := by
  intro h
  have hlen := congrArg String.length h
  rw [String.length_append] at hlen
  have := extFor_length_pos compression_format
  omega

theorem rmtree_all_not_desc (fs : FS) (p : FPath) :
    (rmtree fs p).all (fun q => !(descOf p q)) = true := by
  rw [List.all_eq_true]
  intro q hq
  exact (List.mem_filter.mp hq).2

/-- C6 amended: for every folder whose base name contains no dot (which is
true of every folder this program creates) and valid level, a successful
`compress_folder` call returns the folder's path with the format's
conventional extension appended; afterwards the archive node exists, the
folder's base name is the archive's internal root, the source folder and
everything below it are gone, and the trace shows the tar write strictly
before the recursive delete of the source. -/
theorem c6_archive_replaces_folder (fs : FS) (base : FPath) (name : String)
    (compression_format : String) (level : Int) (res : FPath) (fs2 : FS) (evs : List Event)
    (hnd : '.' ∉ name.data)
    (hlvl : 1 ≤ level ∧ level ≤ 9)
    (h : compress_folder fs (base ++ [name]) compression_format level = (.ok res, fs2, evs)) :
    res = base ++ [name ++ extFor compression_format]
    ∧ res ∈ fs2
    ∧ (base ++ [name]) ∉ fs2
    ∧ fs2.all (fun q => !(descOf (base ++ [name]) q)) = true
    ∧ evs = [.tarCreate res name, .rmtreeDir (base ++ [name])] := by
  have hap : withSuffix (base ++ [name]) (extFor compression_format)
      = base ++ [name ++ extFor compression_format] := by
    rw [withSuffix_concat, pyStem_of_noDot hnd]
  have hdesc : descOf (base ++ [name]) (base ++ [name ++ extFor compression_format])
      = false := by
    rw [descOf_append_same]
    have hne : (name == name ++ extFor compression_format) = false :=
      beq_eq_false_iff_ne.mpr (ne_self_append_ext name compression_format)
    simp [descOf, hne]
  unfold compress_folder at h
  rw [if_neg (not_not.mpr hlvl)] at h
  dsimp only at h
  by_cases hgz : compression_format == "gz"
  · rw [if_pos hgz] at h
    simp only [Prod.mk.injEq, Except.ok.injEq] at h
    obtain ⟨h1, h2, h3⟩ := h
    subst h1
    subst h2
    subst h3
    refine ⟨hap, ?_, ?_, rmtree_all_not_desc _ _, ?_⟩
    · rw [hap]
      exact List.mem_filter.mpr ⟨insertNode_mem_self fs _, by rw [hdesc]; rfl⟩
    · intro hmem
      have hd := (List.mem_filter.mp hmem).2
      rw [descOf_refl] at hd
      cases hd
    · rw [hap, List.getLastD_concat]
  · rw [if_neg hgz] at h
    split at h <;> exact absurd h (by simp)

theorem c6_archive_replaces_folder_witness :
    (["b", "folder.tar.gz"] : FPath) = ["b"] ++ ["folder" ++ extFor "gz"]
    ∧ (["b", "folder.tar.gz"] : FPath) ∈ ([["b"], ["b", "folder.tar.gz"]] : FS)
    ∧ (["b"] ++ ["folder"]) ∉ ([["b"], ["b", "folder.tar.gz"]] : FS)
    ∧ ([["b"], ["b", "folder.tar.gz"]] : FS).all
        (fun q => !(descOf (["b"] ++ ["folder"]) q)) = true
    ∧ ([Event.tarCreate ["b", "folder.tar.gz"] "folder",
        Event.rmtreeDir (["b"] ++ ["folder"])] : List Event)
        = [.tarCreate ["b", "folder.tar.gz"] "folder", .rmtreeDir (["b"] ++ ["folder"])] :=
  c6_archive_replaces_folder [["b"], ["b", "folder"]] ["b"] "folder" "gz" 6
    ["b", "folder.tar.gz"] [["b"], ["b", "folder.tar.gz"]]
    [.tarCreate ["b", "folder.tar.gz"] "folder", .rmtreeDir (["b"] ++ ["folder"])]
    (by decide) (by decide) (by decide)

end AmazonReviews
